import Mathlib

/-!
# FUDO market-monitoring core: shallow embedding and verification

This file embeds, in Lean 4, the market-monitoring and alert-dispatch
pipeline of the FUDO repository and proves (or refutes) the frozen claims
about it.  Each definition is translated directly from the Python source:

* `Cache` / `Cache.get` / `Cache.set`        — `stock_api.py`, class `_Cache`
* `get_prices` and its helpers               — `stock_api.py`, `get_prices`
* `record_price` / `checkSurgeOne`           — `rss_monitor.py`, `record_price`,
                                               `check_surge_alerts`
* `screen_and_notify` / `screenPasses`       — `rss_monitor.py`, `screen_and_notify`
* `check_volume_surge` / `trigger_alert`     — `rss_monitor.py`, `_check_volume_surge`,
                                               `database.py`, `trigger_alert`
* `add_disclosure` / `mark_disclosure_notified` — `database.py`
* `kabutanCapSkip` / `tdnetCapSkip` / `prtimesCapSkip`
                                             — market-cap content filters in
                                               `data_fetch.py` and `tdnet_fetch.py`
* `runPending` / `loopIter`                  — `scheduler.py`, `start_scheduler`
* `dispatchPhase`                            — `scheduler.py`, `job_check_tdnet`

Machine reals (Python floats) are modelled as `ℚ`; wall-clock instants and
durations (`datetime` / `total_seconds()`) as `ℚ` seconds; Python dicts as
functions into `Option`.
-/

namespace FUDO

/-! ## TTL cache (`stock_api.py`, class `_Cache`) -/

/-- In-memory TTL cache.  `store` maps a key to the pair
`(insertion timestamp, value)`, mirroring `self._store: dict[str, tuple[float, object]]`.
`ttl` is in seconds. -/
structure Cache (α : Type) where
  ttl : ℚ
  store : String → Option (ℚ × α)

namespace Cache

/-- Model of `_Cache.get`: missing key → `None`; entry older than the TTL
(`time.time() - ts > self._ttl`) → delete it and return `None`;
otherwise return the stored value.  `now` models `time.time()`.
Returns the result together with the (possibly evicted-from) cache. -/
def get {α : Type} (c : Cache α) (now : ℚ) (key : String) : Option α × Cache α :=
  match c.store key with
  | none => (none, c)
  | some (ts, value) =>
    if now - ts > c.ttl then
      (none, { c with store := fun k => if k = key then none else c.store k })
    else
      (some value, c)

/-- Model of `_Cache.set`: store `(time.time(), value)` under `key`. -/
def set {α : Type} (c : Cache α) (now : ℚ) (key : String) (value : α) : Cache α :=
  { c with store := fun k => if k = key then some (now, value) else c.store k }

/-- Model of `_Cache.clear`. -/
def clear {α : Type} (c : Cache α) : Cache α :=
  { c with store := fun _ => none }

end Cache

/-! ## Disclosure store (`database.py`) -/

/-- One row of the `disclosures` table (the columns the core touches). -/
structure Disclosure where
  id : ℕ
  ticker : String
  company_name : String
  title : String
  disclosed_at : String
  market_cap : Option ℚ
  source : String
  notified : Bool
deriving Repr, DecidableEq

/-- An ingestion attempt: the dict passed to `add_disclosure` (the fields
that participate in the natural key, plus the payload columns). -/
structure RawDisclosure where
  ticker : String
  company_name : String
  title : String
  disclosed_at : String
  market_cap : Option ℚ
  source : String
deriving Repr, DecidableEq

/-- The `disclosures` table: rows plus the autoincrement counter
(`cur.lastrowid`). -/
structure DB where
  rows : List Disclosure
  nextId : ℕ
deriving Repr, DecidableEq

/-- The duplicate check of `add_disclosure`: a stored row collides with an
incoming record when `ticker`, `title` and `disclosed_at` all coincide
(`SELECT id FROM disclosures WHERE ticker = ? AND title = ? AND disclosed_at = ?`). -/
def keyEq (r : Disclosure) (d : RawDisclosure) : Bool :=
  r.ticker = d.ticker && r.title = d.title && r.disclosed_at = d.disclosed_at

/-- Model of `database.add_disclosure`: if a row with the same
(ticker, title, disclosed_at) key exists, return `None` and leave the
store unchanged; otherwise insert the row with `notified = 0` and return
its fresh id. -/
def add_disclosure (db : DB) (d : RawDisclosure) : Option ℕ × DB :=
  if db.rows.any (fun r => keyEq r d) then
    (none, db)
  else
    (some db.nextId,
      { rows := db.rows ++
          [{ id := db.nextId, ticker := d.ticker, company_name := d.company_name,
             title := d.title, disclosed_at := d.disclosed_at,
             market_cap := d.market_cap, source := d.source, notified := false }],
        nextId := db.nextId + 1 })

/-- Model of `database.mark_disclosure_notified`:
`UPDATE disclosures SET notified = 1 WHERE id = ?`. -/
def mark_disclosure_notified (db : DB) (discId : ℕ) : DB :=
  { db with rows := db.rows.map (fun r => if r.id = discId then { r with notified := true } else r) }

/-! ## Quote records and the fetch orchestrator (`stock_api.py`) -/

/-- The quote dict built by `_fetch_yfinance` / returned by `get_prices`
(the `timestamp` string field is irrelevant to every claim and omitted;
all other fields of the dict are present). -/
structure Quote where
  ticker : String
  name : String
  price : ℚ
  change : ℚ
  volume : ℤ
  market_cap : ℚ
  taishaku : String
deriving Repr, DecidableEq

/-- The supplement dict built by `_get_kabutan_supplement`
(`{"market_cap": ..., "taishaku": ...}`). -/
structure Supplement where
  market_cap : ℚ
  taishaku : String
deriving Repr, DecidableEq

/-- First-occurrence de-duplication, the behaviour of building the Python
dict `symbol_map = \x7bf"\x7bt\x7d.T": t for t in tickers\x7d` and then iterating its
keys: a later duplicate collapses onto the first occurrence. -/
def firstDedup : List String → List String
  | [] => []
  | t :: ts => t :: (firstDedup ts).filter (fun u => u ≠ t)

/-- Model of `_fetch_yfinance`: one lookup per distinct ticker (the per-symbol `.info`
calls iterate the de-duplicated `symbol_map`), keeping tickers for which the
remote source produced data.  The remote yfinance collaborator is the oracle
`fetchOne : String → Option Quote` (a `none` models the per-ticker failure
branch that logs and omits the ticker from the result dict). -/
def fetch_yfinance (fetchOne : String → Option Quote) (tickers : List String) :
    List (String × Quote) :=
  (firstDedup tickers).filterMap (fun t => (fetchOne t).map (fun d => (t, d)))

/-- The enrichment step in `get_prices`: if `_get_kabutan_supplement`
returned a dict, overwrite `market_cap` and `taishaku`; otherwise keep the
yfinance defaults.  The kabutan collaborator (with its 24h cache) is the
oracle `supplement`. -/
def enrichQuote (supplement : String → Option Supplement) (t : String) (d : Quote) : Quote :=
  match supplement t with
  | some s => { d with market_cap := s.market_cap, taishaku := s.taishaku }
  | none => d

/-- Pointwise update of a results map (`results[t] = data`). -/
def mapSet (m : String → Option Quote) (t : String) (d : Quote) : String → Option Quote :=
  fun k => if k = t then some d else m k

/-- Phase 1 of `get_prices`: walk the input in order, splitting cache hits
(`results[t] = cached`) from misses (`fetch_needed.append(t)`), threading
the cache through `get` (which may evict).  Returns
(results so far, fetch_needed, cache after the gets). -/
def getPricesPhase1 (cache : Cache Quote) (now : ℚ) (tickers : List String) :
    (String → Option Quote) × List String × Cache Quote :=
  tickers.foldl
    (fun (acc : (String → Option Quote) × List String × Cache Quote) t =>
      let r := acc.2.2.get now t
      match r.1 with
      | some d => (mapSet acc.1 t d, acc.2.1, r.2)
      | none => (acc.1, acc.2.1 ++ [t], r.2))
    (fun _ => none, [], cache)

/-- Phase 2 of `get_prices`: fetch the misses via `_fetch_yfinance`, enrich
each fetched quote with the kabutan supplement, and store it both in
`results` and in the price cache.  Returns (final results map, final cache). -/
def getPricesResults (cache : Cache Quote) (now : ℚ) (fetchOne : String → Option Quote)
    (supplement : String → Option Supplement) (tickers : List String) :
    (String → Option Quote) × Cache Quote :=
  let p1 := getPricesPhase1 cache now tickers
  (fetch_yfinance fetchOne p1.2.1).foldl
    (fun (acc : (String → Option Quote) × Cache Quote) td =>
      let d := enrichQuote supplement td.1 td.2
      (mapSet acc.1 td.1 d, acc.2.set now td.1 d))
    (p1.1, p1.2.2)

/-- Model of `stock_api.get_prices`: `if not tickers: return []`, then phase 1 and
phase 2, and finally the return preserves the input list:
`[results[t] for t in tickers if t in results]`. -/
def get_prices (cache : Cache Quote) (now : ℚ) (fetchOne : String → Option Quote)
    (supplement : String → Option Supplement) (tickers : List String) :
    List Quote × Cache Quote :=
  if tickers = [] then ([], cache)
  else
    let p2 := getPricesResults cache now fetchOne supplement tickers
    (tickers.filterMap p2.1, p2.2)

/-! ## Screening engine (`rss_monitor.py`, `screen_and_notify`) -/

/-- The `api.alert_filter` configuration consumed by the screening engine. -/
structure ScreenFilter where
  taishaku_only : Bool
  market_cap_max : ℚ
  volume_min : ℤ
deriving Repr, DecidableEq

/-- The three screening predicates exactly as the loop body tests them:
pass requires (when `taishaku_only`) `taishaku == "貸借"`, a known market
cap (`market_cap > 0`) at most the ceiling, and volume at least the floor. -/
def screenPasses (f : ScreenFilter) (p : Quote) : Bool :=
  (!f.taishaku_only || p.taishaku = "貸借") &&
  (0 < p.market_cap && p.market_cap ≤ f.market_cap_max) &&
  (f.volume_min ≤ p.volume)

/-- Model of `screen_and_notify`: walk the quotes in order; skip tickers already in
the session set `_notified_tickers`; skip quotes failing a predicate;
otherwise emit the quote as a hit and add its ticker to the set.
Returns (hits, updated session set). -/
def screen_and_notify (f : ScreenFilter) (notified : List String) :
    List Quote → List Quote × List String
  | [] => ([], notified)
  | p :: ps =>
    if p.ticker ∈ notified then screen_and_notify f notified ps
    else if screenPasses f p then
      let rest := screen_and_notify f (notified ++ [p.ticker]) ps
      (p :: rest.1, rest.2)
    else screen_and_notify f notified ps

/-- A whole monitoring session: `screen_and_notify` run once per cycle on
that cycle's quote batch, threading the session set. -/
def screenSession (f : ScreenFilter) (notified : List String) :
    List (List Quote) → List Quote × List String
  | [] => ([], notified)
  | b :: bs =>
    let c := screen_and_notify f notified b
    let rest := screenSession f c.2 bs
    (c.1 ++ rest.1, rest.2)

/-! ## Alert rules and the volume-surge check
(`rss_monitor.py`, `_check_volume_surge`; `database.py`, `trigger_alert`) -/

/-- A row of the `price_alerts` table (the columns the core touches). -/
structure AlertRule where
  id : ℕ
  ticker : String
  name : String
  alert_type : String
  target_price : Option ℚ
  direction : String
  volume_ratio : ℚ
  active : Bool
  triggered : Bool
deriving Repr, DecidableEq

/-- Model of `database.trigger_alert`:
`UPDATE price_alerts SET triggered = 1, active = 0 WHERE id = ?`. -/
def trigger_alert (rules : List AlertRule) (alertId : ℕ) : List AlertRule :=
  rules.map (fun r =>
    if r.id = alertId then { r with triggered := true, active := false } else r)

/-- Model of `_check_volume_surge` on one rule/quote pair.  `prev` models the
process-memory dict `_prev_volumes`.  The code reads
`prev_vol = _prev_volumes.get(ticker, 0)`, unconditionally stores the
current volume, returns without firing when `prev_vol == 0`, and fires when
`prev_vol > 0 and current_vol >= prev_vol * ratio_threshold`.
Returns (fired, updated previous-volume map). -/
def check_volume_surge (prev : String → Option ℤ) (rule : AlertRule) (q : Quote) :
    Bool × (String → Option ℤ) :=
  let current_vol := q.volume
  let prev_vol := (prev rule.ticker).getD 0
  let prevUpd : String → Option ℤ :=
    fun t => if t = rule.ticker then some current_vol else prev t
  if prev_vol = 0 then (false, prevUpd)
  else if 0 < prev_vol ∧ (prev_vol : ℚ) * rule.volume_ratio ≤ (current_vol : ℚ) then
    (true, prevUpd)
  else (false, prevUpd)

/-- Model of `_check_volume_surge` together with its database effect: on fire,
`db.trigger_alert(alert["id"])` deactivates the rule one-shot. -/
def check_volume_surge_full (rules : List AlertRule) (prev : String → Option ℤ)
    (rule : AlertRule) (q : Quote) :
    Bool × (String → Option ℤ) × List AlertRule :=
  let r := check_volume_surge prev rule q
  (r.1, r.2, if r.1 then trigger_alert rules rule.id else rules)

/-! ## Price history and the surge detector
(`rss_monitor.py`, `record_price` / `check_surge_alerts`) -/

def SURGE_THRESHOLD_PCT : ℚ := 4
def SURGE_WINDOW_SEC : ℚ := 180
def SURGE_COOLDOWN_SEC : ℚ := 300

/-- The surge detector's process-memory state: `_price_history`
(per ticker, a `deque(maxlen=200)` of `(timestamp, price)` samples, oldest
first) and `_surge_notified_at` (per ticker, last alert time). -/
structure SurgeState where
  history : String → List (ℚ × ℚ)
  notifiedAt : String → Option ℚ

/-- Model of `record_price`: ignore non-positive prices, else append `(now, price)`
to the ticker's deque; a `deque(maxlen=200)` drops from the front when the
append overflows. -/
def record_price (st : SurgeState) (now : ℚ) (ticker : String) (price : ℚ) : SurgeState :=
  if price ≤ 0 then st
  else
    let h := st.history ticker ++ [(now, price)]
    let h := if 200 < h.length then h.drop (h.length - 200) else h
    { st with history := fun t => if t = ticker then h else st.history t }

/-- The base-price search in `check_surge_alerts`: scan the history from
oldest to newest and take the first sample whose age is at least
`SURGE_WINDOW_SEC`; `none` models insufficient history. -/
def surgeBase (h : List (ℚ × ℚ)) (now : ℚ) : Option ℚ :=
  (h.find? (fun s => decide (SURGE_WINDOW_SEC ≤ now - s.1))).map Prod.snd

/-- The body of the `check_surge_alerts` loop for one quote: skip
non-positive prices; record the price; skip histories shorter than two
samples; find the base price (skip if absent or non-positive); compute the
percentage change and compare with the threshold; check the per-ticker
cooldown; on firing, record the fire time.  Returns (fired, new state). -/
def checkSurgeOne (st : SurgeState) (now : ℚ) (q : Quote) : Bool × SurgeState :=
  if q.price ≤ 0 then (false, st)
  else
    let st1 := record_price st now q.ticker q.price
    let h := st1.history q.ticker
    if h.length < 2 then (false, st1)
    else
      match surgeBase h now with
      | none => (false, st1)
      | some base =>
        if base ≤ 0 then (false, st1)
        else
          let changePct := (q.price - base) / base * 100
          if changePct < SURGE_THRESHOLD_PCT then (false, st1)
          else
            match st1.notifiedAt q.ticker with
            | some last =>
              if now - last < SURGE_COOLDOWN_SEC then (false, st1)
              else
                (true, { st1 with notifiedAt :=
                  fun t => if t = q.ticker then some now else st1.notifiedAt t })
            | none =>
              (true, { st1 with notifiedAt :=
                fun t => if t = q.ticker then some now else st1.notifiedAt t })

/-- Model of `check_surge_alerts` over a whole quote batch: process each quote in
order, accumulating the hit list. -/
def check_surge_alerts (st : SurgeState) (now : ℚ) (prices : List Quote) :
    List Quote × SurgeState :=
  prices.foldl
    (fun acc p =>
      let r := checkSurgeOne acc.2 now p
      (if r.1 then acc.1 ++ [p] else acc.1, r.2))
    ([], st)

/-! ## Market-cap content filters
(`data_fetch.py` and `tdnet_fetch.py`) -/

/-- Model of `fetch_kabutan_disclosures`: `if cap is not None and cap > cap_max: continue`
— `true` means the record is excluded. -/
def kabutanCapSkip (cap : Option ℚ) (capMax : ℚ) : Bool :=
  match cap with
  | some c => capMax < c
  | none => false

/-- Model of `fetch_tdnet_disclosures`: `if cap is not None and cap > cap_max: continue`. -/
def tdnetCapSkip (cap : Option ℚ) (capMax : ℚ) : Bool :=
  match cap with
  | some c => capMax < c
  | none => false

/-- Model of `fetch_prtimes_latest`: `if cap is None or cap > cap_max: continue`. -/
def prtimesCapSkip (cap : Option ℚ) (capMax : ℚ) : Bool :=
  match cap with
  | some c => capMax < c
  | none => true

/-! ## Poll scheduler loop (`scheduler.py`, `start_scheduler`) -/

/-- A Python exception: `KeyboardInterrupt` is not a subclass of
`Exception`, so `except Exception` does not catch it. -/
inductive PyExc where
  | keyboardInterrupt
  | error (msg : String)
deriving Repr, DecidableEq

/-- The outcome of running one job body. -/
abbrev JobRun := Except PyExc Unit

/-- Model of `schedule.run_pending()`: each due job is run in turn; an exception
raised by a job body propagates immediately out of the call. -/
def runPending (jobs : List JobRun) : JobRun :=
  jobs.foldl (fun acc j => acc.bind (fun _ => j)) (Except.ok ())

/-- The `try: ... except Exception as e: print(...)` wrapper that
`job_check_taishaku` and `job_check_dde_ranking` put around their own
bodies: it swallows every `Exception` (logging it) but lets
`KeyboardInterrupt` through. -/
def catchException (j : JobRun) : JobRun :=
  match j with
  | Except.error (PyExc.error _) => Except.ok ()
  | r => r

/-- What one iteration of the scheduler's `while True` loop does. -/
inductive LoopOutcome where
  | continues
  | stops
  | crashes (msg : String)
deriving Repr, DecidableEq

/-- One iteration of the loop in `start_scheduler`:
`try: schedule.run_pending(); time.sleep(30) except KeyboardInterrupt: break`.
Only `KeyboardInterrupt` is caught (→ `stops`); any other exception coming
out of `run_pending` propagates out of `start_scheduler` (→ `crashes`). -/
def loopIter (jobs : List JobRun) : LoopOutcome :=
  match runPending jobs with
  | Except.ok _ => LoopOutcome.continues
  | Except.error PyExc.keyboardInterrupt => LoopOutcome.stops
  | Except.error (PyExc.error m) => LoopOutcome.crashes m

/-- Model of `job_morning_summary`: the body (`db.get_stocks` then the notify call)
has no exception handler of its own, so an exception from the store call
escapes the job.  `getStocks` models the outcome of `db.get_stocks(today)`. -/
def job_morning_summary (getStocks : Except PyExc (List String)) : JobRun :=
  getStocks.bind (fun _ => Except.ok ())

/-! ## TDnet dispatch phase (`scheduler.py`, `job_check_tdnet`) -/

/-- The notification/marking phase at the end of `job_check_tdnet`:
when there are new items and `auto_notify` is on, the job calls
`notify_disclosures(new_items, source="TDnet")` — whose internal
`send_line` boolean is discarded (`_send_all` ignores it and
`notify_disclosures` returns `None`) — and then marks every new item with a
truthy id as notified.  `sendOk` is the channel's actual success flag; the
code never consults it. -/
def dispatchPhase (db : DB) (newIds : List ℕ) (autoNotify : Bool) (sendOk : Bool) : DB :=
  if newIds ≠ [] ∧ autoNotify then
    let _ := sendOk
    newIds.foldl (fun d i => if i ≠ 0 then mark_disclosure_notified d i else d) db
  else db

/-! ## Concrete data used by the closed (witness / counterexample) theorems -/

/-- A concrete quote. -/
def exQuote : Quote :=
  { ticker := "A", name := "a", price := 100, change := 0, volume := 5,
    market_cap := 1, taishaku := "" }

/-- A concrete price cache holding `exQuote` under key "A", stored at time 0. -/
def exCache : Cache Quote :=
  { ttl := 30, store := fun k => if k = "A" then some (0, exQuote) else none }

/-- A concrete volume-surge alert rule for ticker "A" with ratio 2.0. -/
def exRule : AlertRule :=
  { id := 1, ticker := "A", name := "a", alert_type := "volume", target_price := none,
    direction := "above", volume_ratio := 2, active := true, triggered := false }

/-- A concrete ingestion attempt (the scenario record of the spec). -/
def exRaw : RawDisclosure :=
  { ticker := "1234", company_name := "X", title := "X", disclosed_at := "2024-01-01 09:00",
    market_cap := some 5000000000, source := "tdnet" }

/-! # Theorems -/

/-- C7: a TTL-cache `get` performed when the stored entry's age exceeds the
cache's TTL returns absent — never the stale value — and evicts the entry. -/
theorem C7_cache_get_expired_absent {α : Type} (c : Cache α) (now : ℚ) (key : String)
    (ts : ℚ) (v : α)
    (hentry : c.store key = some (ts, v)) (hexp : c.ttl < now - ts) :
    (c.get now key).1 = none ∧ (c.get now key).2.store key = none := by
  simp only [Cache.get, hentry]
  rw [if_pos hexp]
  exact ⟨rfl, by simp⟩

/-- Witness for C7: a concrete 30-second cache read 31 seconds after the
entry was stored returns absent and evicts. -/
theorem C7_cache_get_expired_absent_witness :
    ((Cache.mk 30 (fun k => if k = "A" then some ((0 : ℚ), (5 : ℕ)) else none)).get 31 "A").1
        = none ∧
    ((Cache.mk 30 (fun k => if k = "A" then some ((0 : ℚ), (5 : ℕ)) else none)).get 31 "A").2.store
        "A" = none :=
  C7_cache_get_expired_absent _ 31 "A" 0 5 (by simp) (by norm_num)

/-- Lemma: `add_disclosure` on a duplicate key is a no-op returning `None`. -/
theorem add_disclosure_dup (db : DB) (d : RawDisclosure)
    (h : db.rows.any (fun r => keyEq r d) = true) :
    add_disclosure db d = (none, db) := by
  simp only [add_disclosure, h]
  rfl

/-- Lemma: `add_disclosure` on a fresh key appends the row and returns the fresh id. -/
theorem add_disclosure_fresh (db : DB) (d : RawDisclosure)
    (h : db.rows.any (fun r => keyEq r d) = false) :
    add_disclosure db d =
      (some db.nextId,
        { rows := db.rows ++
            [{ id := db.nextId, ticker := d.ticker, company_name := d.company_name,
               title := d.title, disclosed_at := d.disclosed_at,
               market_cap := d.market_cap, source := d.source, notified := false }],
          nextId := db.nextId + 1 }) := by
  simp only [add_disclosure, h]
  rfl

/-- C2: for a (ticker, title, disclosed-at) key not yet in the store, the
first `add_disclosure` inserts and returns the fresh id, a second attempt
with the same key (any source) is a no-op returning `None`, and the store
then holds exactly one row with that key. -/
theorem C2_add_disclosure_idempotent (db : DB) (d d2 : RawDisclosure)
    (hkey : d2.ticker = d.ticker ∧ d2.title = d.title ∧ d2.disclosed_at = d.disclosed_at)
    (hfresh : ∀ r ∈ db.rows, keyEq r d = false) :
    (add_disclosure db d).1 = some db.nextId ∧
    (add_disclosure (add_disclosure db d).2 d2).1 = none ∧
    (add_disclosure (add_disclosure db d).2 d2).2 = (add_disclosure db d).2 ∧
    (add_disclosure (add_disclosure db d).2 d2).2.rows.countP (fun r => keyEq r d) = 1 := by
  obtain ⟨hk1, hk2, hk3⟩ := hkey
  have hany : db.rows.any (fun r => keyEq r d) = false := by
    rw [List.any_eq_false]
    intro r hr
    simp [hfresh r hr]
  have h1 := add_disclosure_fresh db d hany
  have hnewkey2 : keyEq
      { id := db.nextId, ticker := d.ticker, company_name := d.company_name,
        title := d.title, disclosed_at := d.disclosed_at,
        market_cap := d.market_cap, source := d.source, notified := false } d2 = true := by
    simp [keyEq, hk1, hk2, hk3]
  have h2 : (add_disclosure db d).2.rows.any (fun r => keyEq r d2) = true := by
    rw [h1]
    simp [List.any_append, hnewkey2]
  have hsecond := add_disclosure_dup (add_disclosure db d).2 d2 h2
  refine ⟨by rw [h1], by rw [hsecond], by rw [hsecond], ?_⟩
  rw [hsecond, h1]
  have hz : db.rows.countP (fun r => keyEq r d) = 0 := by
    rw [List.countP_eq_zero]
    intro r hr
    simp [hfresh r hr]
  have hnew : keyEq
      { id := db.nextId, ticker := d.ticker, company_name := d.company_name,
        title := d.title, disclosed_at := d.disclosed_at,
        market_cap := d.market_cap, source := d.source, notified := false } d = true := by
    simp [keyEq]
  simp only [List.countP_append, List.countP_cons, List.countP_nil, hz, hnew]
  simp

/-- Witness for C2: the spec's scenario — two sources both deliver
(ticker "1234", title "X", disclosed-at "2024-01-01 09:00") to an empty
store; one row is stored, the second attempt returns `None`. -/
theorem C2_add_disclosure_idempotent_witness :
    (add_disclosure (DB.mk [] 1) exRaw).1 = some 1 ∧
    (add_disclosure (add_disclosure (DB.mk [] 1) exRaw).2 { exRaw with source := "kabutan" }).1
      = none ∧
    (add_disclosure (add_disclosure (DB.mk [] 1) exRaw).2 { exRaw with source := "kabutan" }).2
      = (add_disclosure (DB.mk [] 1) exRaw).2 ∧
    (add_disclosure (add_disclosure (DB.mk [] 1) exRaw).2
        { exRaw with source := "kabutan" }).2.rows.countP (fun r => keyEq r exRaw) = 1 :=
  C2_add_disclosure_idempotent (DB.mk [] 1) exRaw { exRaw with source := "kabutan" }
    ⟨rfl, rfl, rfl⟩ (by simp)

/-- C6 counterexample: the claim fails for the PRTimes source — a record
whose market cap cannot be resolved (`cap is None`) IS excluded by
`fetch_prtimes_latest`'s filter (`if cap is None or cap > cap_max: continue`). -/
theorem C6_counterexample : prtimesCapSkip none 10000000000 = true := rfl

/-- C6 amended: the kabutan and TDnet disclosure fetchers exclude a record
exactly when its market cap is known and exceeds the ceiling (unknown cap
does not exclude); the PRTimes fetcher additionally excludes every record
whose market cap cannot be resolved. -/
theorem C6_cap_filter_amended (cap : Option ℚ) (capMax : ℚ) :
    (kabutanCapSkip cap capMax = true ↔ ∃ c, cap = some c ∧ capMax < c) ∧
    (tdnetCapSkip cap capMax = true ↔ ∃ c, cap = some c ∧ capMax < c) ∧
    (prtimesCapSkip cap capMax = true ↔ (cap = none ∨ ∃ c, cap = some c ∧ capMax < c)) := by
  cases cap <;> simp [kabutanCapSkip, tdnetCapSkip, prtimesCapSkip]

/-- Marking one id rewrites the rows pointwise. -/
theorem mark_step_rows (db : DB) (i : ℕ) :
    (if i ≠ 0 then mark_disclosure_notified db i else db).rows =
      db.rows.map (fun r => if i ≠ 0 ∧ r.id = i then { r with notified := true } else r) := by
  by_cases h : i = 0
  · subst h
    simp
  · simp only [h, ne_eq, not_false_eq_true, if_true, mark_disclosure_notified]
    apply List.map_congr_left
    intro r _
    by_cases hr : r.id = i <;> simp [hr, h]

/-- Folding the marking loop over a list of ids marks exactly the rows whose
id is a nonzero member of the list. -/
theorem foldl_mark_rows (ids : List ℕ) (db : DB) :
    (ids.foldl (fun d i => if i ≠ 0 then mark_disclosure_notified d i else d) db).rows =
      db.rows.map (fun r => if r.id ∈ ids ∧ r.id ≠ 0 then { r with notified := true } else r) := by
  induction ids generalizing db with
  | nil =>
    simp
  | cons i ids ih =>
    rw [List.foldl_cons, ih]
    rw [mark_step_rows, List.map_map]
    apply List.map_congr_left
    intro r _
    simp only [Function.comp_apply]
    by_cases hcond : i ≠ 0 ∧ r.id = i
    · obtain ⟨hi0, hri⟩ := hcond
      by_cases hmem : i ∈ ids <;>
        simp [hri, hi0, hmem]
    · rw [if_neg hcond]
      by_cases hri : r.id = i
      · have hi0 : i = 0 := by
          by_contra hi0
          exact hcond ⟨hi0, hri⟩
        simp [hri, hi0]
      · simp [hri]

/-- C5 counterexample: a freshly inserted, unnotified disclosure row is
marked `notified = true` by the TDnet job's dispatch phase even though the
notification channel reported failure (`sendOk = false`): the code never
consults the channel's result. -/
theorem C5_counterexample :
    ((dispatchPhase
        (DB.mk [{ id := 1, ticker := "1234", company_name := "X", title := "X",
                  disclosed_at := "2024-01-01 09:00", market_cap := none,
                  source := "tdnet", notified := false }] 2)
        [1] true false).rows.map Disclosure.notified) = [true] := by
  rfl

/-- C5 amended: the dispatch phase of `job_check_tdnet` marks every newly
inserted record (with a truthy id) as notified whenever auto-notify is on
and there are new records, regardless of whether the notification channel
succeeded — its result is discarded; with auto-notify off or no new
records, nothing is marked. -/
theorem C5_mark_regardless_amended (db : DB) (ids : List ℕ) (auto : Bool) (ok ok2 : Bool) :
    dispatchPhase db ids auto ok = dispatchPhase db ids auto ok2 ∧
    (auto = false → dispatchPhase db ids auto ok = db) ∧
    (ids = [] → dispatchPhase db ids auto ok = db) ∧
    (auto = true → ids ≠ [] →
      ∀ r ∈ (dispatchPhase db ids auto ok).rows,
        r.id ∈ ids → r.id ≠ 0 → r.notified = true) := by
  refine ⟨rfl, ?_, ?_, ?_⟩
  · intro h
    subst h
    simp [dispatchPhase]
  · intro h
    subst h
    simp [dispatchPhase]
  · intro hauto hids r hr hmem h0
    subst hauto
    rw [dispatchPhase, if_pos ⟨hids, rfl⟩] at hr
    rw [foldl_mark_rows] at hr
    obtain ⟨r0, _, heq⟩ := List.mem_map.mp hr
    by_cases hcond : r0.id ∈ ids ∧ r0.id ≠ 0
    · rw [if_pos hcond] at heq
      rw [← heq]
    · rw [if_neg hcond] at heq
      subst heq
      exact absurd ⟨hmem, h0⟩ hcond

/-- Witness for C5's amended theorem: on a concrete store, the dispatch
phase produces the same store for a failing channel as for a succeeding
one — the channel result is ignored. -/
theorem C5_mark_regardless_amended_witness :
    dispatchPhase
        (DB.mk [{ id := 1, ticker := "1234", company_name := "X", title := "X",
                  disclosed_at := "2024-01-01 09:00", market_cap := none,
                  source := "tdnet", notified := false }] 2)
        [1] true false
      = dispatchPhase
        (DB.mk [{ id := 1, ticker := "1234", company_name := "X", title := "X",
                  disclosed_at := "2024-01-01 09:00", market_cap := none,
                  source := "tdnet", notified := false }] 2)
        [1] true true :=
  (C5_mark_regardless_amended
      (DB.mk [{ id := 1, ticker := "1234", company_name := "X", title := "X",
                disclosed_at := "2024-01-01 09:00", market_cap := none,
                source := "tdnet", notified := false }] 2)
      [1] true false true).1

/-- Lemma: `runPending` started from an already-raised exception stays there:
once a job body raises, the jobs after it in the cycle do not run. -/
theorem runPending_from_error (jobs : List JobRun) (x : PyExc) :
    jobs.foldl (fun acc j => acc.bind (fun _ => j)) (Except.error x) = Except.error x := by
  induction jobs with
  | nil => rfl
  | cons j jobs ih => exact ih

/-- A cycle whose job bodies are all wrapped in the catch-all handler never
produces an `Exception`-kind error. -/
theorem runPending_guarded_no_error (jobs : List JobRun) (m : String) :
    runPending (jobs.map catchException) ≠ Except.error (PyExc.error m) := by
  induction jobs with
  | nil => simp [runPending]
  | cons j jobs ih =>
    rw [List.map_cons, runPending, List.foldl_cons]
    cases j with
    | ok u =>
      exact ih
    | error e =>
      cases e with
      | keyboardInterrupt =>
        rw [show catchException (Except.error PyExc.keyboardInterrupt)
              = Except.error PyExc.keyboardInterrupt from rfl]
        rw [show (Except.ok ()).bind
              (fun _ => (Except.error PyExc.keyboardInterrupt : JobRun))
              = Except.error PyExc.keyboardInterrupt from rfl]
        rw [runPending_from_error]
        simp
      | error s =>
        exact ih

/-- C4 counterexample: one scheduler cycle in which `job_morning_summary`'s
store call raises terminates the loop — `start_scheduler`'s `try` catches
only `KeyboardInterrupt`, so the exception propagates out of the loop
instead of the loop continuing. -/
theorem C4_counterexample :
    loopIter [job_morning_summary (Except.error (PyExc.error "OperationalError"))]
      = LoopOutcome.crashes "OperationalError" := rfl

/-- C4 amended: a job body that catches its own exceptions (the
`except Exception` wrapper used by `job_check_taishaku`,
`job_check_dde_ranking` and the fetch phase of `job_check_tdnet`) cannot
crash the loop, and after such a caught failure the remaining jobs of the
cycle still run; but an exception escaping an unguarded job body (e.g.
`job_morning_summary` when the store call raises) aborts the cycle and
propagates out of the scheduler loop, which catches only
`KeyboardInterrupt`. -/
theorem C4_loop_isolation_amended (jobs : List JobRun) (e : String)
    (m : String) :
    (loopIter (jobs.map catchException) ≠ LoopOutcome.crashes m) ∧
    (catchException (Except.error (PyExc.error e)) = Except.ok ()) ∧
    (runPending (catchException (Except.error (PyExc.error e)) :: jobs) = runPending jobs) ∧
    (loopIter (job_morning_summary (Except.error (PyExc.error e)) :: jobs)
      = LoopOutcome.crashes e) := by
  refine ⟨?_, rfl, rfl, ?_⟩
  · intro h
    rw [loopIter] at h
    rcases hrp : runPending (jobs.map catchException) with x | u
    · cases x with
      | keyboardInterrupt =>
        rw [hrp] at h
        exact absurd h (by simp)
      | error s =>
        exact runPending_guarded_no_error jobs s hrp
    · rw [hrp] at h
      exact absurd h (by simp)
  · rw [loopIter, runPending, List.foldl_cons]
    rw [show (Except.ok ()).bind
          (fun _ => (job_morning_summary (Except.error (PyExc.error e))))
          = Except.error (PyExc.error e) from rfl]
    rw [runPending_from_error]

/-- Witness for C4's amended theorem: a concrete caught job failure leaves
the rest of the cycle to run as if the job had succeeded, while a concrete
unguarded morning-summary failure crashes the loop. -/
theorem C4_loop_isolation_amended_witness :
    (runPending (catchException (Except.error (PyExc.error "boom")) :: [Except.ok ()])
      = runPending [Except.ok ()]) ∧
    (loopIter (job_morning_summary (Except.error (PyExc.error "boom")) :: [])
      = LoopOutcome.crashes "boom") :=
  ⟨(C4_loop_isolation_amended [Except.ok ()] "boom" "boom").2.2.1,
   (C4_loop_isolation_amended [] "boom" "boom").2.2.2⟩

/-- Lemma: `firstDedup` produces pairwise-distinct tickers. -/
theorem firstDedup_nodup (l : List String) : (firstDedup l).Nodup := by
  induction l with
  | nil => exact List.nodup_nil
  | cons t ts ih =>
    rw [firstDedup]
    refine List.Nodup.cons ?_ (ih.filter _)
    intro hmem
    have h := List.of_mem_filter hmem
    simp at h

/-- The tickers of the yfinance result dict form a sublist of the list the
lookups iterate over. -/
theorem filterMap_fetch_fst_sublist (f : String → Option Quote) (l : List String) :
    ((l.filterMap (fun t => (f t).map (fun d => (t, d)))).map Prod.fst).Sublist l := by
  induction l with
  | nil => simp
  | cons t ts ih =>
    cases hf : f t with
    | none =>
      have hstep : List.filterMap (fun u => (f u).map (fun d => (u, d))) (t :: ts)
          = List.filterMap (fun u => (f u).map (fun d => (u, d))) ts := by
        simp [List.filterMap_cons, hf]
      rw [hstep]
      exact ih.cons t
    | some d =>
      have hstep : List.filterMap (fun u => (f u).map (fun d => (u, d))) (t :: ts)
          = (t, d) :: List.filterMap (fun u => (f u).map (fun d => (u, d))) ts := by
        simp [List.filterMap_cons, hf]
      rw [hstep, List.map_cons]
      exact ih.cons₂ t

/-- The yfinance fetch issues at most one lookup per distinct ticker. -/
theorem fetch_yfinance_nodup (f : String → Option Quote) (tickers : List String) :
    ((fetch_yfinance f tickers).map Prod.fst).Nodup :=
  (firstDedup_nodup tickers).sublist (filterMap_fetch_fst_sublist f (firstDedup tickers))

/-- C3 counterexample: on the input `["A", "A"]` (one distinct ticker,
already cached) `get_prices` returns TWO records — the claim's "at most one
record per distinct ticker" fails because the return comprehension
`[results[t] for t in tickers if t in results]` keeps every input
occurrence. -/
theorem C3_counterexample :
    (get_prices exCache 0 (fun _ => none) (fun _ => none) ["A", "A"]).1
      = [exQuote, exQuote] := by
  norm_num [get_prices, getPricesResults, getPricesPhase1, Cache.get, exCache,
    fetch_yfinance, firstDedup, mapSet, List.filterMap, if_neg, List.cons_ne_nil]

/-- C3 amended: an empty input yields an explicit empty result; the remote
per-ticker lookups are de-duplicated (at most one fetched record per
distinct ticker); and the returned list is the input list mapped position
by position through the final per-ticker results map — so order is
preserved, tickers with no obtainable data are dropped, and a duplicated
input ticker yields one (identical) record per occurrence, not one per
distinct ticker. -/
theorem C3_get_prices_amended (cache : Cache Quote) (now : ℚ)
    (fetchOne : String → Option Quote) (supplement : String → Option Supplement)
    (tickers : List String) :
    (get_prices cache now fetchOne supplement []).1 = [] ∧
    ((fetch_yfinance fetchOne tickers).map Prod.fst).Nodup ∧
    (get_prices cache now fetchOne supplement tickers).1
      = tickers.filterMap (getPricesResults cache now fetchOne supplement tickers).1 := by
  refine ⟨rfl, fetch_yfinance_nodup fetchOne tickers, ?_⟩
  by_cases h : tickers = []
  · subst h
    rfl
  · rw [get_prices, if_neg h]

/-- C9 counterexample: with ratio 2.0, record a cycle with volume 0, then a
cycle with volume 100: a previous recorded volume exists (it is `some 0`)
and 100 ≥ 0 × 2.0, yet the rule does not fire — the code treats a recorded
volume of 0 as "no previous value" (`if prev_vol == 0: return`). -/
theorem C9_counterexample :
    ((check_volume_surge (fun _ => none) exRule { exQuote with volume := 0 }).2 "A"
        = some 0) ∧
    ((0 : ℚ) * exRule.volume_ratio ≤ ((100 : ℤ) : ℚ)) ∧
    ((check_volume_surge
        ((check_volume_surge (fun _ => none) exRule { exQuote with volume := 0 }).2)
        exRule { exQuote with volume := 100 }).1 = false) := by
  refine ⟨?_, by norm_num [exRule], ?_⟩ <;>
    norm_num [check_volume_surge, exRule, exQuote]

/-- C9 amended: the volume-surge rule fires exactly when the previous
cycle's recorded volume exists AND IS POSITIVE and the current volume is at
least the previous volume times the rule's ratio threshold (a recorded
previous volume of 0 — and a missing one, i.e. the first observation — never
fires); the previous-volume baseline is updated to the current volume every
cycle regardless of firing (and other tickers' baselines are untouched);
and on firing the rule is deactivated one-shot (`triggered=true`,
`active=false`), while a non-firing cycle leaves the rules unchanged. -/
theorem C9_volume_surge_amended (prev : String → Option ℤ) (rule : AlertRule) (q : Quote)
    (rules : List AlertRule) :
    ((check_volume_surge prev rule q).1 = true ↔
      0 < (prev rule.ticker).getD 0 ∧
      (((prev rule.ticker).getD 0 : ℚ) * rule.volume_ratio ≤ (q.volume : ℚ))) ∧
    ((check_volume_surge prev rule q).2 rule.ticker = some q.volume) ∧
    (∀ t, t ≠ rule.ticker → (check_volume_surge prev rule q).2 t = prev t) ∧
    (prev rule.ticker = none → (check_volume_surge prev rule q).1 = false) ∧
    ((check_volume_surge prev rule q).1 = true →
      ∀ rl ∈ (check_volume_surge_full rules prev rule q).2.2,
        rl.id = rule.id → rl.triggered = true ∧ rl.active = false) ∧
    ((check_volume_surge prev rule q).1 = false →
      (check_volume_surge_full rules prev rule q).2.2 = rules) := by
  have hiff : (check_volume_surge prev rule q).1 = true ↔
      0 < (prev rule.ticker).getD 0 ∧
      (((prev rule.ticker).getD 0 : ℚ) * rule.volume_ratio ≤ (q.volume : ℚ)) := by
    rw [check_volume_surge]
    by_cases h0 : (prev rule.ticker).getD 0 = 0
    · rw [if_pos h0]
      simp [h0]
    · rw [if_neg h0]
      by_cases hc : 0 < (prev rule.ticker).getD 0 ∧
          (((prev rule.ticker).getD 0 : ℤ) : ℚ) * rule.volume_ratio ≤ ((q.volume : ℤ) : ℚ)
      · rw [if_pos hc]
        simpa using hc
      · rw [if_neg hc]
        simpa using hc
  refine ⟨hiff, ?_, ?_, ?_, ?_, ?_⟩
  · rw [check_volume_surge]
    by_cases h0 : (prev rule.ticker).getD 0 = 0
    · rw [if_pos h0]
      simp
    · rw [if_neg h0]
      split <;> simp
  · intro t ht
    rw [check_volume_surge]
    by_cases h0 : (prev rule.ticker).getD 0 = 0
    · rw [if_pos h0]
      simp [ht]
    · rw [if_neg h0]
      split <;> simp [ht]
  · intro hnone
    rw [check_volume_surge, hnone]
    rfl
  · intro hfire rl hrl hid
    rw [check_volume_surge_full, if_pos hfire] at hrl
    rw [trigger_alert] at hrl
    obtain ⟨r0, _, heq⟩ := List.mem_map.mp hrl
    by_cases hr : r0.id = rule.id
    · rw [if_pos hr] at heq
      rw [← heq]
      exact ⟨rfl, rfl⟩
    · rw [if_neg hr] at heq
      subst heq
      exact absurd hid hr
  · intro hnofire
    rw [check_volume_surge_full, hnofire]
    rfl

/-- Witness for C9's amended theorem: the spec's scenario — previous cycle
volume 10,000 recorded, current volume 25,000, ratio 2.0 → the rule fires. -/
theorem C9_volume_surge_amended_witness :
    (check_volume_surge (fun t => if t = "A" then some 10000 else none) exRule
      { exQuote with volume := 25000 }).1 = true :=
  ((C9_volume_surge_amended (fun t => if t = "A" then some 10000 else none) exRule
      { exQuote with volume := 25000 } []).1).mpr
    ⟨by norm_num [exRule], by norm_num [exRule]⟩

/-- The session notified-set only grows across one screening pass. -/
theorem screen_notified_mono (f : ScreenFilter) (ps : List Quote) :
    ∀ notified : List String, ∀ t ∈ notified, t ∈ (screen_and_notify f notified ps).2 := by
  induction ps with
  | nil =>
    intro notified t ht
    simpa [screen_and_notify] using ht
  | cons p ps ih =>
    intro notified t ht
    rw [screen_and_notify]
    by_cases h1 : p.ticker ∈ notified
    · rw [if_pos h1]
      exact ih notified t ht
    · rw [if_neg h1]
      by_cases h2 : screenPasses f p = true
      · rw [if_pos h2]
        exact ih (notified ++ [p.ticker]) t (by simp [ht])
      · rw [if_neg h2]
        exact ih notified t ht

/-- Every emitted hit passed all predicates, was not already in the session
set, and its ticker is in the updated session set. -/
theorem screen_hits_spec (f : ScreenFilter) (ps : List Quote) :
    ∀ notified : List String, ∀ p ∈ (screen_and_notify f notified ps).1,
      screenPasses f p = true ∧ p.ticker ∉ notified ∧
      p.ticker ∈ (screen_and_notify f notified ps).2 := by
  induction ps with
  | nil =>
    intro notified p hp
    simp [screen_and_notify] at hp
  | cons q ps ih =>
    intro notified p hp
    rw [screen_and_notify] at hp
    rw [screen_and_notify]
    by_cases h1 : q.ticker ∈ notified
    · rw [if_pos h1] at hp
      rw [if_pos h1]
      exact ih notified p hp
    · rw [if_neg h1] at hp
      rw [if_neg h1]
      by_cases h2 : screenPasses f q = true
      · rw [if_pos h2] at hp
        rw [if_pos h2]
        rcases List.mem_cons.mp hp with hpq | hrest
        · subst hpq
          refine ⟨h2, h1, ?_⟩
          exact screen_notified_mono f ps (notified ++ [p.ticker]) p.ticker (by simp)
        · obtain ⟨ha, hb, hc⟩ := ih (notified ++ [q.ticker]) p hrest
          refine ⟨ha, ?_, hc⟩
          intro hmem
          exact hb (by simp [hmem])
      · rw [if_neg h2] at hp
        rw [if_neg h2]
        exact ih notified p hp

/-- Every quote that passes the predicates and is not yet in the session
set gives rise to an emitted hit with its ticker. -/
theorem screen_emits (f : ScreenFilter) (ps : List Quote) :
    ∀ notified : List String, ∀ p ∈ ps, screenPasses f p = true → p.ticker ∉ notified →
      ∃ q ∈ (screen_and_notify f notified ps).1, q.ticker = p.ticker := by
  induction ps with
  | nil =>
    intro notified p hp
    simp at hp
  | cons q0 ps ih =>
    intro notified p hp hpass hnot
    rw [screen_and_notify]
    by_cases h1 : q0.ticker ∈ notified
    · rw [if_pos h1]
      rcases List.mem_cons.mp hp with hpq | hrest
      · subst hpq
        exact absurd h1 hnot
      · exact ih notified p hrest hpass hnot
    · rw [if_neg h1]
      by_cases h2 : screenPasses f q0 = true
      · rw [if_pos h2]
        rcases List.mem_cons.mp hp with hpq | hrest
        · subst hpq
          exact ⟨p, List.mem_cons_self _ _, rfl⟩
        · by_cases hsame : p.ticker = q0.ticker
          · exact ⟨q0, List.mem_cons_self _ _, hsame.symm⟩
          · have hnot2 : p.ticker ∉ notified ++ [q0.ticker] := by
              simp [hnot, hsame]
            obtain ⟨q, hq, hqt⟩ := ih (notified ++ [q0.ticker]) p hrest hpass hnot2
            exact ⟨q, List.mem_cons_of_mem _ hq, hqt⟩
      · rw [if_neg h2]
        rcases List.mem_cons.mp hp with hpq | hrest
        · subst hpq
          exact absurd hpass h2
        · exact ih notified p hrest hpass hnot

/-- A ticker already in the session set is never emitted in a pass. -/
theorem screen_count_notified_zero (f : ScreenFilter) (ps : List Quote) :
    ∀ notified : List String, ∀ t ∈ notified,
      (screen_and_notify f notified ps).1.countP (fun p => decide (p.ticker = t)) = 0 := by
  induction ps with
  | nil =>
    intro notified t _
    simp [screen_and_notify]
  | cons q ps ih =>
    intro notified t ht
    rw [screen_and_notify]
    by_cases h1 : q.ticker ∈ notified
    · rw [if_pos h1]
      exact ih notified t ht
    · rw [if_neg h1]
      by_cases h2 : screenPasses f q = true
      · rw [if_pos h2]
        rw [List.countP_cons]
        have hne : ¬(q.ticker = t) := by
          intro he
          exact h1 (he ▸ ht)
        have := ih (notified ++ [q.ticker]) t (by simp [ht])
        simp [this, decide_eq_false hne]
      · rw [if_neg h2]
        exact ih notified t ht

/-- In one screening pass, any given ticker is emitted at most once. -/
theorem screen_count_le_one (f : ScreenFilter) (ps : List Quote) :
    ∀ notified : List String, ∀ t : String,
      (screen_and_notify f notified ps).1.countP (fun p => decide (p.ticker = t)) ≤ 1 := by
  induction ps with
  | nil =>
    intro notified t
    simp [screen_and_notify]
  | cons q ps ih =>
    intro notified t
    rw [screen_and_notify]
    by_cases h1 : q.ticker ∈ notified
    · rw [if_pos h1]
      exact ih notified t
    · rw [if_neg h1]
      by_cases h2 : screenPasses f q = true
      · rw [if_pos h2]
        rw [List.countP_cons]
        by_cases hqt : q.ticker = t
        · subst hqt
          have hzero := screen_count_notified_zero f ps (notified ++ [q.ticker]) q.ticker
            (by simp)
          rw [hzero]
          simp
        · have := ih (notified ++ [q.ticker]) t
          simp [this, decide_eq_false hqt]
      · rw [if_neg h2]
        exact ih notified t

/-- Across a whole session, a ticker already in the session set is never
emitted. -/
theorem session_count_notified_zero (f : ScreenFilter) (bs : List (List Quote)) :
    ∀ notified : List String, ∀ t ∈ notified,
      (screenSession f notified bs).1.countP (fun p => decide (p.ticker = t)) = 0 := by
  induction bs with
  | nil =>
    intro notified t _
    simp [screenSession]
  | cons b bs ih =>
    intro notified t ht
    rw [screenSession]
    simp only [List.countP_append]
    rw [screen_count_notified_zero f b notified t ht,
      ih (screen_and_notify f notified b).2 t (screen_notified_mono f b notified t ht)]

/-- Across a whole session, any given ticker is emitted at most once. -/
theorem session_count_le_one (f : ScreenFilter) (bs : List (List Quote)) :
    ∀ notified : List String, ∀ t : String,
      (screenSession f notified bs).1.countP (fun p => decide (p.ticker = t)) ≤ 1 := by
  induction bs with
  | nil =>
    intro notified t
    simp [screenSession]
  | cons b bs ih =>
    intro notified t
    rw [screenSession]
    simp only [List.countP_append]
    by_cases hpos :
        0 < (screen_and_notify f notified b).1.countP (fun p => decide (p.ticker = t))
    · obtain ⟨p, hp, hpt⟩ := List.countP_pos_iff.mp hpos
      have hpt2 : p.ticker = t := of_decide_eq_true hpt
      have hmem : t ∈ (screen_and_notify f notified b).2 :=
        hpt2 ▸ (screen_hits_spec f b notified p hp).2.2
      rw [session_count_notified_zero f bs (screen_and_notify f notified b).2 t hmem]
      have := screen_count_le_one f b notified t
      omega
    · push_neg at hpos
      have h0 : (screen_and_notify f notified b).1.countP (fun p => decide (p.ticker = t))
          = 0 := by omega
      rw [h0]
      have := ih (screen_and_notify f notified b).2 t
      omega

/-- Lemma: `record_price` never touches the cooldown map. -/
theorem record_price_notifiedAt (st : SurgeState) (now : ℚ) (t : String) (p : ℚ) :
    (record_price st now t p).notifiedAt = st.notifiedAt := by
  rw [record_price]
  by_cases hp : p ≤ 0
  · rw [if_pos hp]
  · rw [if_neg hp]

/-- Lemma: `record_price` preserves positivity of every stored sample: only
strictly positive prices are ever appended. -/
theorem record_price_pos (st : SurgeState) (now : ℚ) (t : String) (p : ℚ)
    (hpos : ∀ u : String, ∀ s ∈ st.history u, 0 < s.2) :
    ∀ u : String, ∀ s ∈ (record_price st now t p).history u, 0 < s.2 := by
  intro u s hs
  rw [record_price] at hs
  by_cases hp : p ≤ 0
  · rw [if_pos hp] at hs
    exact hpos u s hs
  · rw [if_neg hp] at hs
    simp only at hs
    by_cases hu : u = t
    · rw [if_pos hu] at hs
      have hmem : s ∈ st.history t ++ [(now, p)] := by
        by_cases hlen : 200 < (st.history t ++ [(now, p)]).length
        · rw [if_pos hlen] at hs
          exact List.mem_of_mem_drop hs
        · rw [if_neg hlen] at hs
          exact hs
      rcases List.mem_append.mp hmem with hold | hnew
      · exact hpos t s hold
      · have : s = (now, p) := by simpa using hnew
        rw [this]
        exact not_le.mp hp
    · rw [if_neg hu] at hs
      exact hpos u s hs

/-- After recording a positive price, the ticker's history ends with the
fresh `(now, price)` sample. -/
theorem record_price_snoc (st : SurgeState) (now : ℚ) (t : String) (p : ℚ) (hp : 0 < p) :
    ∃ l, (record_price st now t p).history t = l ++ [(now, p)] := by
  rw [record_price, if_neg (not_le.mpr hp)]
  simp only [if_pos]
  by_cases hlen : 200 < (st.history t ++ [(now, p)]).length
  · rw [if_pos hlen]
    refine ⟨(st.history t).drop ((st.history t ++ [(now, p)]).length - 200), ?_⟩
    rw [List.drop_append_of_le_length]
    simp only [List.length_append, List.length_cons, List.length_nil]
    omega
  · rw [if_neg hlen]
    exact ⟨st.history t, rfl⟩

/-- A history consisting only of the just-appended sample has no sample old
enough to serve as a base. -/
theorem surgeBase_singleton_now (now p : ℚ) : surgeBase [(now, p)] now = none := by
  rw [surgeBase]
  have hdec : (fun s : ℚ × ℚ => decide (SURGE_WINDOW_SEC ≤ now - s.1)) (now, p) = false := by
    apply decide_eq_false
    rw [SURGE_WINDOW_SEC]
    norm_num
  rw [List.find?_cons_of_neg _ (by simpa using hdec)]
  rfl

/-- The base price returned by the oldest-first scan is the price of some
stored sample. -/
theorem surgeBase_mem (h : List (ℚ × ℚ)) (now b : ℚ) (hb : surgeBase h now = some b) :
    ∃ s ∈ h, s.2 = b := by
  rw [surgeBase] at hb
  rcases hf : h.find? (fun s => decide (SURGE_WINDOW_SEC ≤ now - s.1)) with _ | s
  · rw [hf] at hb
    exact Option.noConfusion hb
  · rw [hf] at hb
    refine ⟨s, List.mem_of_find?_eq_some hf, ?_⟩
    simpa using hb

/-- Branch equation: non-positive current price — skip, state untouched. -/
theorem surge_eq_negprice (st : SurgeState) (now : ℚ) (q : Quote) (hp : q.price ≤ 0) :
    checkSurgeOne st now q = (false, st) := by
  rw [checkSurgeOne, if_pos hp]

/-- Branch equation: fewer than two samples — skip. -/
theorem surge_eq_short (st : SurgeState) (now : ℚ) (q : Quote) (hp : ¬q.price ≤ 0)
    (hlen : ((record_price st now q.ticker q.price).history q.ticker).length < 2) :
    checkSurgeOne st now q = (false, record_price st now q.ticker q.price) := by
  simp only [checkSurgeOne]
  rw [if_neg hp, if_pos hlen]

/-- Branch equation: no sample at least `SURGE_WINDOW_SEC` old — skip. -/
theorem surge_eq_nobase (st : SurgeState) (now : ℚ) (q : Quote) (hp : ¬q.price ≤ 0)
    (hlen : ¬((record_price st now q.ticker q.price).history q.ticker).length < 2)
    (hsb : surgeBase ((record_price st now q.ticker q.price).history q.ticker) now = none) :
    checkSurgeOne st now q = (false, record_price st now q.ticker q.price) := by
  simp only [checkSurgeOne]
  rw [if_neg hp, if_neg hlen, hsb]

/-- Branch equation: non-positive base price — skip. -/
theorem surge_eq_basenonpos (st : SurgeState) (now : ℚ) (q : Quote) (b : ℚ)
    (hp : ¬q.price ≤ 0)
    (hlen : ¬((record_price st now q.ticker q.price).history q.ticker).length < 2)
    (hsb : surgeBase ((record_price st now q.ticker q.price).history q.ticker) now = some b)
    (hb : b ≤ 0) :
    checkSurgeOne st now q = (false, record_price st now q.ticker q.price) := by
  simp only [checkSurgeOne]
  rw [if_neg hp, if_neg hlen, hsb]
  dsimp only
  rw [if_pos hb]

/-- Branch equation: change below the threshold — skip. -/
theorem surge_eq_below (st : SurgeState) (now : ℚ) (q : Quote) (b : ℚ)
    (hp : ¬q.price ≤ 0)
    (hlen : ¬((record_price st now q.ticker q.price).history q.ticker).length < 2)
    (hsb : surgeBase ((record_price st now q.ticker q.price).history q.ticker) now = some b)
    (hb : ¬b ≤ 0)
    (hpct : (q.price - b) / b * 100 < SURGE_THRESHOLD_PCT) :
    checkSurgeOne st now q = (false, record_price st now q.ticker q.price) := by
  simp only [checkSurgeOne]
  rw [if_neg hp, if_neg hlen, hsb]
  dsimp only
  rw [if_neg hb, if_pos hpct]

/-- Branch equation: still within the cooldown — suppress. -/
theorem surge_eq_cooldown (st : SurgeState) (now : ℚ) (q : Quote) (b last : ℚ)
    (hp : ¬q.price ≤ 0)
    (hlen : ¬((record_price st now q.ticker q.price).history q.ticker).length < 2)
    (hsb : surgeBase ((record_price st now q.ticker q.price).history q.ticker) now = some b)
    (hb : ¬b ≤ 0)
    (hpct : ¬(q.price - b) / b * 100 < SURGE_THRESHOLD_PCT)
    (hnot : (record_price st now q.ticker q.price).notifiedAt q.ticker = some last)
    (hcd : now - last < SURGE_COOLDOWN_SEC) :
    checkSurgeOne st now q = (false, record_price st now q.ticker q.price) := by
  simp only [checkSurgeOne]
  rw [if_neg hp, if_neg hlen, hsb]
  dsimp only
  rw [if_neg hb, if_neg hpct, hnot]
  dsimp only
  rw [if_pos hcd]

/-- Branch equation: first-ever alert for the ticker — fire and record the
fire time. -/
theorem surge_eq_fire_none (st : SurgeState) (now : ℚ) (q : Quote) (b : ℚ)
    (hp : ¬q.price ≤ 0)
    (hlen : ¬((record_price st now q.ticker q.price).history q.ticker).length < 2)
    (hsb : surgeBase ((record_price st now q.ticker q.price).history q.ticker) now = some b)
    (hb : ¬b ≤ 0)
    (hpct : ¬(q.price - b) / b * 100 < SURGE_THRESHOLD_PCT)
    (hnot : (record_price st now q.ticker q.price).notifiedAt q.ticker = none) :
    checkSurgeOne st now q =
      (true, { record_price st now q.ticker q.price with
               notifiedAt := fun t => if t = q.ticker then some now
                 else (record_price st now q.ticker q.price).notifiedAt t }) := by
  simp only [checkSurgeOne]
  rw [if_neg hp, if_neg hlen, hsb]
  dsimp only
  rw [if_neg hb, if_neg hpct, hnot]

/-- Branch equation: cooldown elapsed — fire again and record the new fire
time. -/
theorem surge_eq_fire_late (st : SurgeState) (now : ℚ) (q : Quote) (b last : ℚ)
    (hp : ¬q.price ≤ 0)
    (hlen : ¬((record_price st now q.ticker q.price).history q.ticker).length < 2)
    (hsb : surgeBase ((record_price st now q.ticker q.price).history q.ticker) now = some b)
    (hb : ¬b ≤ 0)
    (hpct : ¬(q.price - b) / b * 100 < SURGE_THRESHOLD_PCT)
    (hnot : (record_price st now q.ticker q.price).notifiedAt q.ticker = some last)
    (hcd : ¬now - last < SURGE_COOLDOWN_SEC) :
    checkSurgeOne st now q =
      (true, { record_price st now q.ticker q.price with
               notifiedAt := fun t => if t = q.ticker then some now
                 else (record_price st now q.ticker q.price).notifiedAt t }) := by
  simp only [checkSurgeOne]
  rw [if_neg hp, if_neg hlen, hsb]
  dsimp only
  rw [if_neg hb, if_neg hpct, hnot]
  dsimp only
  rw [if_neg hcd]


/-- C8: a ticker that passes all configured screening predicates is emitted
as a hit and added to the session notified-set; the set never shrinks; a
ticker already in the set is never emitted again; and over a whole session
(any sequence of cycles, even re-evaluating unchanged data) each ticker is
emitted at most once. -/
theorem C8_screening_once_per_session (f : ScreenFilter) (notified : List String)
    (prices : List Quote) (batches : List (List Quote)) (t : String) :
    (∀ u ∈ notified, u ∈ (screen_and_notify f notified prices).2) ∧
    (∀ p ∈ (screen_and_notify f notified prices).1,
        screenPasses f p = true ∧ p.ticker ∉ notified ∧
        p.ticker ∈ (screen_and_notify f notified prices).2) ∧
    (∀ p ∈ prices, screenPasses f p = true → p.ticker ∉ notified →
        ∃ q ∈ (screen_and_notify f notified prices).1, q.ticker = p.ticker) ∧
    (t ∈ notified →
        (screen_and_notify f notified prices).1.countP (fun p => decide (p.ticker = t)) = 0) ∧
    ((screenSession f notified batches).1.countP (fun p => decide (p.ticker = t)) ≤ 1) :=
  ⟨screen_notified_mono f prices notified,
   screen_hits_spec f prices notified,
   screen_emits f prices notified,
   fun ht => screen_count_notified_zero f prices notified t ht,
   session_count_le_one f batches notified t⟩

/-- Witness for C8: a concrete passing quote evaluated in two consecutive
cycles with unchanged data is emitted at most once over the session. -/
theorem C8_screening_once_per_session_witness :
    (screenSession (ScreenFilter.mk true 10000000000 1000000) []
        [[{ exQuote with taishaku := "貸借", market_cap := 5000000000, volume := 2000000 }],
         [{ exQuote with taishaku := "貸借", market_cap := 5000000000, volume := 2000000 }]]).1.countP
      (fun p => decide (p.ticker = "A")) ≤ 1 :=
  (C8_screening_once_per_session (ScreenFilter.mk true 10000000000 1000000) []
      [{ exQuote with taishaku := "貸借", market_cap := 5000000000, volume := 2000000 }]
      [[{ exQuote with taishaku := "貸借", market_cap := 5000000000, volume := 2000000 }],
       [{ exQuote with taishaku := "貸借", market_cap := 5000000000, volume := 2000000 }]]
      "A").2.2.2.2

/-- If the recorded history has fewer than two samples, no base price can
be found: the only sample is the one just appended, which is 0 seconds old. -/
theorem surge_short_no_base (st : SurgeState) (now : ℚ) (q : Quote)
    (hppos : 0 < q.price)
    (hlen : ((record_price st now q.ticker q.price).history q.ticker).length < 2) :
    surgeBase ((record_price st now q.ticker q.price).history q.ticker) now = none := by
  obtain ⟨l, hl⟩ := record_price_snoc st now q.ticker q.price hppos
  rw [hl] at hlen ⊢
  rcases l with _ | ⟨x, l2⟩
  · rw [List.nil_append]
    exact surgeBase_singleton_now now q.price
  · exfalso
    simp [List.length_append] at hlen
    omega

/-- C1: processing one quote, the surge detector fires exactly when the
current price is positive, a base price exists (the first sample of the
post-append history, scanned oldest to newest, at least 180 seconds old),
the percentage change from base to current is at least 4.0%, and the
per-ticker cooldown has expired (no previous fire, or the previous fire is
at least 300 seconds old); a fire records the fire time `now` for the
ticker (arming the 300-second suppression), and a non-firing pass leaves
the cooldown map untouched.  The history-positivity hypothesis is the
`record_price` invariant (an invariant also established for the divisor-safety claim). -/
theorem C1_surge_fires_iff (st : SurgeState) (now : ℚ) (q : Quote)
    (hpos : ∀ u : String, ∀ s ∈ st.history u, 0 < s.2) :
    ((checkSurgeOne st now q).1 = true ↔
      (0 < q.price ∧
        ∃ b, surgeBase ((record_price st now q.ticker q.price).history q.ticker) now = some b ∧
          SURGE_THRESHOLD_PCT ≤ (q.price - b) / b * 100 ∧
          (∀ last, st.notifiedAt q.ticker = some last → SURGE_COOLDOWN_SEC ≤ now - last))) ∧
    ((checkSurgeOne st now q).1 = true →
      (checkSurgeOne st now q).2.notifiedAt q.ticker = some now) ∧
    ((checkSurgeOne st now q).1 = false →
      (checkSurgeOne st now q).2.notifiedAt = st.notifiedAt) := by
  have hnotifEq := record_price_notifiedAt st now q.ticker q.price
  by_cases hp : q.price ≤ 0
  · rw [surge_eq_negprice st now q hp]
    refine ⟨?_, by simp, fun _ => rfl⟩
    apply iff_of_false (by simp)
    rintro ⟨h0, -⟩
    exact absurd h0 (not_lt.mpr hp)
  · have hppos : 0 < q.price := not_le.mp hp
    have hRpos := record_price_pos st now q.ticker q.price hpos
    by_cases hlen : ((record_price st now q.ticker q.price).history q.ticker).length < 2
    · rw [surge_eq_short st now q hp hlen]
      refine ⟨?_, by simp, fun _ => hnotifEq⟩
      apply iff_of_false (by simp)
      rintro ⟨-, b, hsb, -, -⟩
      rw [surge_short_no_base st now q hppos hlen] at hsb
      exact Option.noConfusion hsb
    · rcases hsb : surgeBase ((record_price st now q.ticker q.price).history q.ticker) now
        with _ | b
      · rw [surge_eq_nobase st now q hp hlen hsb]
        refine ⟨?_, by simp, fun _ => hnotifEq⟩
        apply iff_of_false (by simp)
        rintro ⟨-, b, hsb2, -, -⟩
        exact Option.noConfusion hsb2
      · have hbpos : 0 < b := by
          obtain ⟨s, hs, hsb2⟩ := surgeBase_mem _ _ _ hsb
          have := hRpos q.ticker s hs
          rwa [hsb2] at this
        have hb : ¬b ≤ 0 := not_le.mpr hbpos
        by_cases hpct : (q.price - b) / b * 100 < SURGE_THRESHOLD_PCT
        · rw [surge_eq_below st now q b hp hlen hsb hb hpct]
          refine ⟨?_, by simp, fun _ => hnotifEq⟩
          apply iff_of_false (by simp)
          rintro ⟨-, b2, hsb2, hθ, -⟩
          have hbb : b = b2 := by
            injection hsb2
          rw [← hbb] at hθ
          exact absurd hpct (not_lt.mpr hθ)
        · rcases hnot : st.notifiedAt q.ticker with _ | last
          · have hnotR : (record_price st now q.ticker q.price).notifiedAt q.ticker
                = none := by
              rw [hnotifEq]
              exact hnot
            rw [surge_eq_fire_none st now q b hp hlen hsb hb hpct hnotR]
            refine ⟨?_, ?_, by simp⟩
            · apply iff_of_true rfl
              refine ⟨hppos, b, rfl, not_lt.mp hpct, ?_⟩
              intro l hl
              exact Option.noConfusion hl
            · intro _
              simp
          · have hnotR : (record_price st now q.ticker q.price).notifiedAt q.ticker
                = some last := by
              rw [hnotifEq]
              exact hnot
            by_cases hcd : now - last < SURGE_COOLDOWN_SEC
            · rw [surge_eq_cooldown st now q b last hp hlen hsb hb hpct hnotR hcd]
              refine ⟨?_, by simp, fun _ => hnotifEq⟩
              apply iff_of_false (by simp)
              rintro ⟨-, b2, -, -, hcool⟩
              have := hcool last rfl
              exact absurd hcd (not_lt.mpr this)
            · rw [surge_eq_fire_late st now q b last hp hlen hsb hb hpct hnotR hcd]
              refine ⟨?_, ?_, by simp⟩
              · apply iff_of_true rfl
                refine ⟨hppos, b, rfl, not_lt.mp hpct, ?_⟩
                intro l hl
                have hll : last = l := by
                  injection hl
                rw [← hll]
                exact not_lt.mp hcd
              · intro _
                simp

/-- Witness for C1: the spec's scenario — base price 1000 recorded at
t = 0, current price 1045 at t = 190 (no prior alert): +4.5% ≥ 4.0% over a
190-second-old base, so the detector fires. -/
theorem C1_surge_fires_iff_witness :
    (checkSurgeOne
      (SurgeState.mk (fun t => if t = "6920" then [(0, 1000)] else []) (fun _ => none))
      190 { exQuote with ticker := "6920", price := 1045 }).1 = true :=
  ((C1_surge_fires_iff
      (SurgeState.mk (fun t => if t = "6920" then [(0, 1000)] else []) (fun _ => none))
      190 { exQuote with ticker := "6920", price := 1045 }
      (by
        intro u s hs
        by_cases hu : u = "6920" <;> simp [hu] at hs
        · rw [hs]
          norm_num)).1).mpr
    ⟨by norm_num [exQuote], 1000,
     by norm_num [record_price, surgeBase, exQuote, SURGE_WINDOW_SEC, List.find?],
     by norm_num [exQuote, SURGE_THRESHOLD_PCT],
     by simp⟩

/-- The resulting state of one surge pass keeps either the old history
(non-positive price) or exactly the post-`record_price` history. -/
theorem checkSurgeOne_snd_history (st : SurgeState) (now : ℚ) (q : Quote) :
    (checkSurgeOne st now q).2.history = st.history ∨
    (checkSurgeOne st now q).2.history
      = (record_price st now q.ticker q.price).history := by
  by_cases hp : q.price ≤ 0
  · rw [surge_eq_negprice st now q hp]
    exact Or.inl rfl
  · right
    by_cases hlen : ((record_price st now q.ticker q.price).history q.ticker).length < 2
    · rw [surge_eq_short st now q hp hlen]
    · rcases hsb : surgeBase ((record_price st now q.ticker q.price).history q.ticker) now
        with _ | b
      · rw [surge_eq_nobase st now q hp hlen hsb]
      · by_cases hb : b ≤ 0
        · rw [surge_eq_basenonpos st now q b hp hlen hsb hb]
        · by_cases hpct : (q.price - b) / b * 100 < SURGE_THRESHOLD_PCT
          · rw [surge_eq_below st now q b hp hlen hsb hb hpct]
          · rcases hnot : (record_price st now q.ticker q.price).notifiedAt q.ticker
              with _ | last
            · rw [surge_eq_fire_none st now q b hp hlen hsb hb hpct hnot]
            · by_cases hcd : now - last < SURGE_COOLDOWN_SEC
              · rw [surge_eq_cooldown st now q b last hp hlen hsb hb hpct hnot hcd]
              · rw [surge_eq_fire_late st now q b last hp hlen hsb hb hpct hnot hcd]

/-- C10: the percentage-change division in the surge detector never divides
by zero — `record_price` drops non-positive prices (leaving the history
untouched) so every stored sample stays strictly positive, the invariant is
preserved by a full detector pass, and any base price drawn from the
post-append history (the divisor of the percentage change) is strictly
positive. -/
theorem C10_positive_divisor (st : SurgeState) (now : ℚ) (t : String) (p : ℚ)
    (q : Quote) (b : ℚ)
    (hpos : ∀ u : String, ∀ s ∈ st.history u, 0 < s.2) :
    (p ≤ 0 → record_price st now t p = st) ∧
    (∀ u : String, ∀ s ∈ (record_price st now t p).history u, 0 < s.2) ∧
    (∀ u : String, ∀ s ∈ (checkSurgeOne st now q).2.history u, 0 < s.2) ∧
    (surgeBase ((record_price st now q.ticker q.price).history q.ticker) now = some b →
      0 < b) := by
  refine ⟨fun hp => by rw [record_price, if_pos hp],
          record_price_pos st now t p hpos, ?_, ?_⟩
  · rcases checkSurgeOne_snd_history st now q with hh | hh
    · rw [hh]
      exact hpos
    · rw [hh]
      exact record_price_pos st now q.ticker q.price hpos
  · intro hsb
    obtain ⟨s, hs, hb2⟩ := surgeBase_mem _ _ _ hsb
    have := record_price_pos st now q.ticker q.price hpos q.ticker s hs
    rwa [hb2] at this

/-- Witness for C10 at a concrete state: the base price actually found at
t = 190 over the single-sample history is 1000, and by the theorem it is
strictly positive — the concrete divisor is nonzero. -/
theorem C10_positive_divisor_witness :
    surgeBase ((record_price
        (SurgeState.mk (fun t => if t = "6920" then [(0, 1000)] else []) (fun _ => none))
        190 "6920" 1045).history "6920") 190 = some 1000 ∧ (0 : ℚ) < 1000 := by
  have hsb : surgeBase ((record_price
      (SurgeState.mk (fun t => if t = "6920" then [(0, 1000)] else []) (fun _ => none))
      190 "6920" 1045).history "6920") 190 = some 1000 := by
    norm_num [record_price, surgeBase, SURGE_WINDOW_SEC, List.find?]
  refine ⟨hsb, ?_⟩
  exact (C10_positive_divisor
      (SurgeState.mk (fun t => if t = "6920" then [(0, 1000)] else []) (fun _ => none))
      190 "6920" 1045 { exQuote with ticker := "6920", price := 1045 } 1000
      (by
        intro u s hs
        by_cases hu : u = "6920" <;> simp [hu] at hs
        · rw [hs]
          norm_num)).2.2.2 hsb

end FUDO
